import Mathlib

/-!
Verification of the `parcel` repository material:
  * `src/packages/core/package-manager/src/NodeResolverBase.js` — base class for
    Node-style module resolution (extension probing, package entries, builtins).
  * `src/unnamed/part_000` — integration-test harness: `runBundles` and the
    browser/node execution-context preparation (`prepareBrowserContext`,
    `prepareNodeContext`), including the process-context `require` shim.

The JavaScript is shallowly embedded: strings stay strings, JS objects become
association lists, the event loop and the recursive `require` become fuel-based
interpreters.  Host facilities (Node's `path` module, `Module.builtinModules`,
the third-party `resolve` package) are modelled where the source calls them.
-/

namespace StrOps

/-!  Structural re-implementations of the string operations the embedding
needs.  The core library versions are compiled through well-founded recursion
and do not reduce inside the kernel, which would leave concrete evaluations
(`decide`/`rfl`) stuck; these definitions recurse structurally on `List Char`
and mirror the core semantics. -/

/-- `s.startsWith p`, via `List.isPrefixOf` on the character lists. -/
def startsWith (s p : String) : Bool := p.data.isPrefixOf s.data

/-- Split a character list at every occurrence of `c` (like
`String.splitOn` with a one-character separator). -/
def splitChar (c : Char) (cs : List Char) : List (List Char) :=
  cs.foldr
    (fun ch acc =>
      match acc with
      | h :: t => if ch = c then [] :: h :: t else (ch :: h) :: t
      | [] => [[ch]])
    [[]]

/-- `s.splitOn "/"`. -/
def splitSlash (s : String) : List String := (splitChar '/' s.data).map String.mk

/-- Interpose `sep` between the strings of a list (`String.intercalate`). -/
def joinSep (sep : String) : List String → String
  | [] => ""
  | [x] => x
  | x :: y :: rest => x ++ sep ++ joinSep sep (y :: rest)

/-- Membership of a string in a list of strings. -/
def memStr (x : String) : List String → Bool
  | [] => false
  | y :: rest => y = x || memStr x rest

/-- First value associated to a string key. -/
def lookupStr {α : Type} (key : String) : List (String × α) → Option α
  | [] => none
  | (k, v) :: rest => if k = key then some v else lookupStr key rest

end StrOps

namespace PathMod

/-- Drop trailing `/` characters (Node's `matchedSlash` skipping), but keep a
sole root slash intact. -/
def trimTrailingSlashes (s : String) : String :=
  let t := String.mk ((s.data.reverse.dropWhile (fun c => c = '/')).reverse)
  if t = "" && s ≠ "" then "/" else t

/-- The part of the path after the last separator, trailing separators ignored
(used to model `path.extname`'s scan, which skips trailing slashes). -/
def baseOf (s : String) : String :=
  let t := trimTrailingSlashes s
  if t = "/" then ""
  else match (StrOps.splitSlash t).getLast? with
    | some b => b
    | none => ""

/-- One right-to-left step of Node `path.extname`'s scan over the basename
(no separators inside).  State: position of the last dot seen, and Node's
`preDotState` (0 initial, 1 after a second dot, -1 after a non-dot left of a
dot). -/
def extScan : List Char → Nat → Option Nat → Int → Option Nat × Int
  | [], _, startDot, pre => (startDot, pre)
  | c :: rest, i, startDot, pre =>
    if c = '.' then
      match startDot with
      | none => extScan rest (i - 1) (some i) pre
      | some d => extScan rest (i - 1) (some d) (if pre ≠ 1 then 1 else pre)
    else
      match startDot with
      | none => extScan rest (i - 1) none pre
      | some d => extScan rest (i - 1) (some d) (-1)

/-- Model of Node `path.extname` (posix): the extension of the basename, empty
when the last dot is leading (hidden files), when the basename is `..`, or when
there is no dot at all. -/
def extname (s : String) : String :=
  let b := (baseOf s).data
  let n := b.length
  if n = 0 then ""
  else
    match extScan b.reverse (n - 1) none 0 with
    | (none, _) => ""
    | (some d, pre) =>
      if pre = 0 then ""
      else if pre = 1 && d = n - 1 && d = 1 then ""
      else String.mk (b.drop d)

/-- Model of Node `path.posix.dirname`. -/
def dirname (s : String) : String :=
  let t := trimTrailingSlashes s
  if t = "/" then "/"
  else
    let segs := StrOps.splitSlash t
    match segs with
    | [] => "."
    | [_] => if StrOps.startsWith s "/" then "/" else "."
    | _ =>
      let pre := StrOps.joinSep "/" segs.dropLast
      if pre = "" then "/" else pre

/-- Segment normalisation shared by `normalize`/`resolve`: drop empty and `.`
segments, let `..` pop a previous segment (kept at the front of a relative
path, dropped at an absolute root). -/
def normSegs (abs : Bool) (segs : List String) : List String :=
  segs.foldl
    (fun acc seg =>
      if seg = "" || seg = "." then acc
      else if seg = ".." then
        match acc.getLast? with
        | some last => if last = ".." then acc ++ [".."] else acc.dropLast
        | none => if abs then acc else [".."]
      else acc ++ [seg])
    []

/-- Model of Node `path.posix.normalize` (trailing-slash preservation omitted;
the resolver only splits the result into segments). -/
def normalize (s : String) : String :=
  let abs := StrOps.startsWith s "/"
  let body := StrOps.joinSep "/" (normSegs abs (StrOps.splitSlash s))
  if abs then "/" ++ body
  else if body = "" then "." else body

/-- Model of Node `path.posix.resolve dir p` for the harness's use, where `dir`
is always an absolute directory: an absolute `p` wins, otherwise `p` is joined
onto `dir` and normalised. -/
def resolvePath (dir p : String) : String :=
  if StrOps.startsWith p "/" then normalize p
  else normalize (dir ++ "/" ++ p)

end PathMod

namespace NodeResolverBase

/-- The host's `Module.builtinModules` (external input of the source file,
lines 8–11: `for (let builtin of Module.builtinModules) builtins[builtin] = true`). -/
def builtinModules : List String :=
  ["assert", "async_hooks", "buffer", "child_process", "cluster", "console",
   "constants", "crypto", "dgram", "dns", "domain", "events", "fs", "http",
   "http2", "https", "inspector", "module", "net", "os", "path", "perf_hooks",
   "process", "punycode", "querystring", "readline", "repl", "stream",
   "string_decoder", "timers", "tls", "tty", "url", "util", "v8", "vm", "zlib"]

/-- `isBuiltin(name)` (lines 87–89): membership in the builtins table. -/
def isBuiltin (name : String) : Bool := StrOps.memStr name builtinModules

/-- `Object.keys(Module._extensions)` — the host's loadable extensions, the
constructor's default for `this.extensions` (line 25). -/
def defaultExtensions : List String := [".js", ".json", ".node"]

/-- A parsed `package.json` as the resolver reads it: `name`, `main`, `source`
string fields.  `none` models a missing (or non-string) field, matching the
source's `typeof … === 'string'` checks. -/
structure PackageJSON where
  name : Option String
  main : Option String
  source : Option String
deriving DecidableEq

/-- `expandFile(file)` (lines 33–48): one candidate per configured extension,
with the verbatim path prepended when the file already has an extension and
appended otherwise. -/
def expandFile (extensions : List String) (file : String) : List String :=
  let res := extensions.map (fun e => file ++ e)
  if PathMod.extname file ≠ "" then file :: res else res ++ [file]

/-- The internal-package policy test of `getPackageEntries` (lines 52–57):
non-production build env, a string `name` with the `@parcel/` reserved
namespace, and not the excluded `@parcel/watcher`. -/
def sourcePolicy (buildEnv : Option String) (pkg : PackageJSON) : Bool :=
  buildEnv ≠ some "production" &&
    (match pkg.name with
     | some n => StrOps.startsWith n "@parcel/" && n ≠ "@parcel/watcher"
     | none => false)

/-- `getPackageEntries(dir, pkg)` (lines 50–75).  `buildEnv` is
`process.env.PARCEL_BUILD_ENV` (`none` = unset).  When the policy holds, `main`
is replaced by `pkg.source` outright; the `[main].filter(typeof … === 'string')`
step becomes `Option.toList`; the `map` body defaults `''`/`.`/`./` to `index`
and resolves against `dir` (the dead `typeof main !== 'string'` invariant throw
after the filter is unreachable and omitted). -/
def getPackageEntries (buildEnv : Option String) (dir : String)
    (pkg : PackageJSON) : List String :=
  let main := if sourcePolicy buildEnv pkg then pkg.source else pkg.main
  main.toList.map (fun m =>
    let m := if m = "" || m = "." || m = "./" then "index" else m
    PathMod.resolvePath dir m)

/-- `getModuleParts(name)` (lines 77–85): split the normalised specifier on the
separator and merge a leading `@scope` segment with the following one. -/
def getModuleParts (name : String) : List String :=
  let parts := StrOps.splitSlash (PathMod.normalize name)
  match parts with
  | p0 :: p1 :: rest =>
    if StrOps.startsWith p0 "@" then (p0 ++ "/" ++ p1) :: rest else parts
  | _ => parts

/-- The `ResolveResult` record (lines 13–16): the resolved path or bare
specifier, plus the package manifest when one was consulted. -/
structure ResolveResult where
  resolved : String
  pkg : Option PackageJSON
deriving DecidableEq

/-- The virtual filesystem the resolver probes: existing file paths, and parsed
manifests keyed by package directory (`dir ↦ contents of dir/package.json`). -/
structure VirtualFS where
  files : List String
  manifests : List (String × PackageJSON)
deriving DecidableEq

/-- A resolver instance: its filesystem view and configured extensions
(constructor lines 23–27). -/
structure Resolver where
  fs : VirtualFS
  extensions : List String
deriving DecidableEq

/-- Probe candidates in order against the filesystem, returning the first that
exists together with the log of every path whose existence was checked. -/
def firstExisting (fs : VirtualFS) : List String → Option String × List String
  | [] => (none, [])
  | c :: cs =>
    if StrOps.memStr c fs.files then (some c, [c])
    else
      let (r, log) := firstExisting fs cs
      (r, c :: log)

/-- The failure message of `NodeResolverBase.resolve` (line 30). -/
def resolutionError (id fromPath : String) : String :=
  "Could not resolve \"" ++ id ++ "\" from \"" ++ fromPath ++ "\""

/-- Ancestor directories of `d` up to the filesystem root, fuelled by the path
length (each `dirname` step strictly shortens a non-root path). -/
def ancestorDirs : Nat → String → List String
  | 0, d => [d]
  | fuel + 1, d =>
    if d = "/" || d = "." || d = "" then [d]
    else d :: ancestorDirs fuel (PathMod.dirname d)

/-- Modelled from the spec: the package-resolution step of `resolve` (spec
§4.1 steps 4–5); the concrete subclass overriding `NodeResolverBase.resolve`
is not part of the supplied sources.  Walk the ancestor directories looking for
`<dir>/node_modules/<name>/package.json`; at the nearest manifest, take the
subpath (for multi-part specifiers) or `getPackageEntries`, expand with
`expandFile`, and accept the first candidate that exists.  The second
component logs each filesystem access (manifest reads and existence probes). -/
def resolvePackage (r : Resolver) (buildEnv : Option String)
    (id fromPath : String) (parts : List String) (pkgName : String) :
    List String → Except String ResolveResult × List String
  | [] => (.error (resolutionError id fromPath), [])
  | dir :: rest =>
    let pkgDir := dir ++ "/node_modules/" ++ pkgName
    let manifestPath := pkgDir ++ "/package.json"
    match StrOps.lookupStr pkgDir r.fs.manifests with
    | some pkg =>
      let entries :=
        if parts.length > 1 then
          [PathMod.resolvePath pkgDir (StrOps.joinSep "/" parts.tail)]
        else getPackageEntries buildEnv pkgDir pkg
      let cands := (entries.map (expandFile r.extensions)).flatten
      (match firstExisting r.fs cands with
       | (some p, log) => (.ok ⟨p, some pkg⟩, manifestPath :: log)
       | (none, log) => (.error (resolutionError id fromPath), manifestPath :: log))
    | none =>
      let (res, log) := resolvePackage r buildEnv id fromPath parts pkgName rest
      (res, manifestPath :: log)

/-- Modelled from the spec: `resolve(specifier, fromPath)` (spec §4.1); the
concrete subclass overriding the always-throwing `NodeResolverBase.resolve`
stub (lines 29–31) is not part of the supplied sources.  Step 1 is the builtin
short-circuit via `isBuiltin`; relative/absolute specifiers go through
`expandFile` candidate expansion; bare specifiers go through package
resolution.  The second component logs each filesystem access. -/
def resolve (r : Resolver) (buildEnv : Option String) (id fromPath : String) :
    Except String ResolveResult × List String :=
  if isBuiltin id then (.ok ⟨id, none⟩, [])
  else if StrOps.startsWith id "." || StrOps.startsWith id "/" then
    let target := PathMod.resolvePath (PathMod.dirname fromPath) id
    match firstExisting r.fs (expandFile r.extensions target) with
    | (some p, log) => (.ok ⟨p, none⟩, log)
    | (none, log) => (.error (resolutionError id fromPath), log)
  else
    let parts := getModuleParts id
    let fromDir := PathMod.dirname fromPath
    resolvePackage r buildEnv id fromPath parts (parts.headD id)
      (ancestorDirs fromDir.length fromDir)

end NodeResolverBase

section ResolverTheorems
open PathMod NodeResolverBase

/-- C1: For every specifier that exactly matches a builtin module name,
`resolve` returns the specifier unresolved, with no filesystem access logged
and no resolution error. -/
theorem resolve_builtin_short_circuit (r : Resolver) (buildEnv : Option String)
    (id fromPath : String) (h : isBuiltin id = true) :
    resolve r buildEnv id fromPath = (.ok ⟨id, none⟩, []) := by
  simp [resolve, h]

/-- Witness for C1: the builtin `fs` resolves to itself with an empty access
log, on a resolver whose filesystem is empty. -/
theorem resolve_builtin_short_circuit_witness :
    resolve ⟨⟨[], []⟩, defaultExtensions⟩ none "fs" "/app/index.js" =
      (.ok ⟨"fs", none⟩, []) :=
  resolve_builtin_short_circuit ⟨⟨[], []⟩, defaultExtensions⟩ none "fs"
    "/app/index.js" (by decide)

/-- C3 (code bug): A manifest whose entry field is missing altogether is
filtered out *before* the `index` default is applied (the
`[main].filter(typeof … === 'string')` step precedes the `map` whose body
carries the comment `Default to index file if no main field find`), so
`getPackageEntries` yields an *empty* candidate list instead of the `index`
candidate the comment and spec promise.  The `''`/`.`/`./` cases do reach the
default. -/
theorem getPackageEntries_missing_entry_field_empty :
    getPackageEntries (some "production") "/app/node_modules/foo"
        ⟨some "foo", none, none⟩ = [] ∧
    getPackageEntries (some "production") "/app/node_modules/foo"
        ⟨some "foo", some ".", none⟩ = ["/app/node_modules/foo/index"] := by
  constructor
  · rfl
  · decide

/-- C4: `expandFile` puts the verbatim path first when the file already has
an extension, and last when it does not; either way each configured extension
is appended in configured order. -/
theorem expandFile_order (exts : List String) (file : String) :
    (PathMod.extname file ≠ "" →
      expandFile exts file = file :: exts.map (fun e => file ++ e)) ∧
    (PathMod.extname file = "" →
      expandFile exts file = exts.map (fun e => file ++ e) ++ [file]) := by
  constructor <;> intro h <;> simp [expandFile, h]

/-- Witness for C4: a path with an extension is tried verbatim first, one
without gets the bare name last. -/
theorem expandFile_order_witness :
    expandFile [".js", ".json"] "/a/b.css" =
        ["/a/b.css", "/a/b.css.js", "/a/b.css.json"] ∧
    expandFile [".js", ".json"] "/a/b" = ["/a/b.js", "/a/b.json", "/a/b"] := by
  constructor
  · rw [(expandFile_order [".js", ".json"] "/a/b.css").1 (by decide)]; decide
  · rw [(expandFile_order [".js", ".json"] "/a/b").2 (by decide)]; decide

/-- Counterexample for C5: a manifest with only a `main` field does *not*
resolve the same with and without the internal-package policy conditions —
when the policy holds, `main` is replaced by the absent `source` field and the
candidate list collapses to empty. -/
theorem getPackageEntries_main_only_policy_cex :
    getPackageEntries none "/d" ⟨some "@parcel/foo", some "lib/main.js", none⟩ ≠
      getPackageEntries (some "production") "/d"
        ⟨some "@parcel/foo", some "lib/main.js", none⟩ := by
  decide

/-- C5 (amended): `getPackageEntries` substitutes `source` for `main`
exactly when the policy conditions hold (non-production, `@parcel/`-prefixed
name, not `@parcel/watcher`); the substitution happens even when `source` is
absent, so a main-only internal package yields an empty candidate list under
the policy, its `main`-derived entry otherwise, and its `source`-derived entry
when `source` is present under the policy. -/
theorem getPackageEntries_source_policy (buildEnv : Option String)
    (dir n m : String)
    (hpol : sourcePolicy buildEnv ⟨some n, some m, none⟩ = true) :
    getPackageEntries buildEnv dir ⟨some n, some m, none⟩ = [] ∧
    getPackageEntries (some "production") dir ⟨some n, some m, none⟩ =
      [PathMod.resolvePath dir (if m = "" || m = "." || m = "./" then "index" else m)] ∧
    ∀ s, getPackageEntries buildEnv dir ⟨some n, some m, some s⟩ =
      [PathMod.resolvePath dir (if s = "" || s = "." || s = "./" then "index" else s)] := by
  have hpol2 : ∀ s, sourcePolicy buildEnv ⟨some n, some m, s⟩ = true := by
    intro s
    simpa [sourcePolicy] using hpol
  refine ⟨?_, ?_, ?_⟩
  · simp [getPackageEntries, hpol]
  · simp [getPackageEntries, sourcePolicy]
  · intro s
    simp [getPackageEntries, hpol2 (some s)]

/-- Witness for C5's amended theorem, at a main-only `@parcel/foo` manifest in
a non-production environment, plus the same manifest with a `source` field. -/
theorem getPackageEntries_source_policy_witness :
    getPackageEntries none "/d" ⟨some "@parcel/foo", some "lib/main.js", none⟩ = [] ∧
    getPackageEntries (some "production") "/d"
        ⟨some "@parcel/foo", some "lib/main.js", none⟩ = ["/d/lib/main.js"] ∧
    getPackageEntries none "/d"
        ⟨some "@parcel/foo", some "lib/main.js", some "src/idx.js"⟩ =
      ["/d/src/idx.js"] := by
  have h := getPackageEntries_source_policy none "/d" "@parcel/foo" "lib/main.js"
    (by decide)
  refine ⟨h.1, ?_, ?_⟩
  · rw [h.2.1]; decide
  · rw [h.2.2 "src/idx.js"]; decide

end ResolverTheorems

namespace NodeRun

/-- Values flowing through the process-context simulation: the export objects
modules build, plus the two special returns of the `require` shim (the
overlayFS-backed `fs` shim of lines 562–572, and delegation to the host
`require` of line 576). -/
inductive NVal where
  | undefV
  | emptyObj
  | intV (n : Int)
  | strV (s : String)
  | fsShim
  | hostModule (name : String)
deriving DecidableEq

/-- Deep embedding of a module body as the statements that matter to the
require/cache protocol: assigning `module.exports`, requiring for side
effects, and assigning `module.exports = require(…)`. -/
inductive NCmd where
  | setExport (v : NVal)
  | requireDiscard (spec : String)
  | exportRequire (spec : String)
deriving DecidableEq

/-- A module body. -/
abbrev NModule := List NCmd

/-- The overlayFS view the shim resolves against: path ↦ module body
(a present key is an existing file). -/
abbrev NFs := List (String × NModule)

/-- Model of the third-party `resolve.sync` call (lines 536–559, an external
library): a core-module specifier resolves to itself; otherwise the specifier
is resolved against `basedir` and probed verbatim, then with the configured
`.js`/`.json` extensions, against the overlayFS. -/
def resolveSyncModel (fs : NFs) (basedir spec : String) : Option String :=
  if NodeResolverBase.isBuiltin spec then some spec
  else
    let base := PathMod.resolvePath basedir spec
    [base, base ++ ".js", base ++ ".json"].find?
      (fun p => (StrOps.lookupStr p fs).isSome)

/-- The mutable state the shim closes over: the keys of the module-level
`nodeCache` (line 531) and the current `module.exports` value of every
constructed context (the entry context included). -/
structure NState where
  cached : List String
  exps : List (String × NVal)
deriving DecidableEq

/-- Update (or insert) a key's export value, keeping its position. -/
def setKV : List (String × NVal) → String → NVal → List (String × NVal)
  | [], k, v => [(k, v)]
  | (k', v') :: rest, k, v =>
    if k' = k then (k, v) :: rest else (k', v') :: setKV rest k v

/-- The current `module.exports` of the context for path `p`. -/
def getExp (st : NState) (p : String) : NVal :=
  (StrOps.lookupStr p st.exps).getD .undefV

/-- `module.exports = v` in the context for path `p`. -/
def setExp (st : NState) (p : String) (v : NVal) : NState :=
  ⟨st.cached, setKV st.exps p v⟩

/-- A pending piece of work for the process-context interpreter: a `require`
call, or the evaluation of (the rest of) a module body in the context for
`self`.  A single fuelled function over tasks keeps the recursion structural,
so concrete runs reduce inside the kernel. -/
inductive NTask where
  | req (fromPath spec : String)
  | eval (self : String) (body : NModule)

/-- Interpreter for the `require` closure built by `prepareNodeContext`
(lines 534–592) and for `vm.runInContext` module-body evaluation (lines
587–590).  A `req` task: resolve the specifier from the requiring file's
directory; return the `fs` shim when it resolves to `fs` (lines 562–572);
delegate to the host loader when resolution returns the specifier unchanged
(line 576); return the cached context's exports on a `nodeCache` hit (lines
579–581); otherwise create a fresh context, **cache it before running the
module body** (lines 583–584), evaluate the body, and return its (final)
exports (line 591).  An `eval` task runs the body statement by statement and
returns the context's exports.  Fuel exhaustion and resolution failure both
surface as `.error`. -/
def nodeExec (fs : NFs) : Nat → NState → NTask → Except String (NVal × NState)
  | 0, _, _ => .error "out of fuel"
  | fuel + 1, st, .req fromPath spec =>
    match resolveSyncModel fs (PathMod.dirname fromPath) spec with
    | none => .error ("Cannot find module " ++ spec)
    | some res =>
      if res = "fs" then .ok (.fsShim, st)
      else if res = spec then .ok (.hostModule spec, st)
      else if StrOps.memStr res st.cached then .ok (getExp st res, st)
      else
        match nodeExec fs fuel ⟨res :: st.cached, setKV st.exps res .emptyObj⟩
            (.eval res ((StrOps.lookupStr res fs).getD [])) with
        | .error e => .error e
        | .ok (_, st2) => .ok (getExp st2 res, st2)
  | _ + 1, st, .eval self [] => .ok (getExp st self, st)
  | fuel + 1, st, .eval self (c :: cs) =>
    match c with
    | .setExport v => nodeExec fs fuel (setExp st self v) (.eval self cs)
    | .requireDiscard spec =>
      match nodeExec fs fuel st (.req self spec) with
      | .error e => .error e
      | .ok (_, st2) => nodeExec fs fuel st2 (.eval self cs)
    | .exportRequire spec =>
      match nodeExec fs fuel st (.req self spec) with
      | .error e => .error e
      | .ok (v, st2) => nodeExec fs fuel (setExp st2 self v) (.eval self cs)

/-- A `require(spec)` call made from the file at `fromPath`. -/
def reqM (fs : NFs) (fuel : Nat) (st : NState) (fromPath spec : String) :
    Except String (NVal × NState) :=
  nodeExec fs fuel st (.req fromPath spec)

/-- Evaluation of a module body in the context for `self`. -/
def evalCmds (fs : NFs) (fuel : Nat) (st : NState) (self : String)
    (body : NModule) : Except String NState :=
  (nodeExec fs fuel st (.eval self body)).map Prod.snd

/-- A node-context run of an entry bundle (`runBundles` lines 229–231 and
246–251): the entry code is evaluated in a fresh context from
`prepareNodeContext`; the entry context itself is never entered into
`nodeCache`, while requires issued during evaluation use the cache state
passed in (module-level, so shared across runs). -/
def runNodeBundle (fs : NFs) (st : NState) (entryPath : String)
    (code : NModule) (fuel : Nat) : Except String (NVal × NState) :=
  match evalCmds fs fuel ⟨st.cached, setKV st.exps entryPath .emptyObj⟩
      entryPath code with
  | .error e => .error e
  | .ok st' => .ok (getExp st' entryPath, st')

/-- The circular pair for C6: `/A.js` exports `v0`, requires `/B.js`, then
exports `v1`; `/B.js` re-requires `/A.js` and exports whatever that returns. -/
def circFs (v0 v1 : NVal) : NFs :=
  [("/A.js", [.setExport v0, .requireDiscard "./B", .setExport v1]),
   ("/B.js", [.exportRequire "./A"])]

end NodeRun

section NodeRunTheorems
open NodeRun

/-- C6: Circular process-context requires terminate: requiring `/A.js`, whose
evaluation requires `/B.js`, which re-requires `/A.js`, succeeds (no fuel
exhaustion, no error), returns A's final export `v1`, and the inner require
observed by B is A's in-progress export object `v0` — the value cached before
A's body finished evaluating. -/
theorem circular_require_terminates (v0 v1 : NVal) :
    (reqM (circFs v0 v1) 8 ⟨[], []⟩ "/main.js" "./A").toOption.map Prod.fst =
        some v1 ∧
    (reqM (circFs v0 v1) 8 ⟨[], []⟩ "/main.js" "./A").toOption.map
        (fun r => getExp r.2 "/B.js") = some v0 := by
  constructor <;> rfl

/-- Filesystem of the first run for C2: `/m.js` exports 1. -/
def runOneFs : NFs := [("/m.js", [.setExport (.intV 1)])]

/-- Filesystem of the second run for C2 (`beforeEach` replaced the
filesystems, lines 37–40): `/m.js` now exports 2. -/
def runTwoFs : NFs := [("/m.js", [.setExport (.intV 2)])]

/-- Counterexample for C2: `nodeCache` (line 531) is module-level and is not
reset between runs, so a module cached in the first run *is* visible to the
second run's requires: after run one loads `/m.js` (exporting 1), run two —
on a replaced filesystem where `/m.js` exports 2 — still receives 1 from the
cache, while a run starting from an empty cache would receive 2. -/
theorem nodeCache_persists_across_runs_cex :
    ((runNodeBundle runTwoFs
          ((runNodeBundle runOneFs ⟨[], []⟩ "/e.js" [.exportRequire "./m"] 8).toOption.map
              Prod.snd |>.getD ⟨[], []⟩)
          "/e2.js" [.exportRequire "./m"] 8).toOption.map Prod.fst =
        some (.intV 1)) ∧
    (runNodeBundle runTwoFs ⟨[], []⟩ "/e2.js" [.exportRequire "./m"] 8).toOption.map
        Prod.fst = some (.intV 2) := by
  constructor <;> rfl

/-- C2 (amended): the require cache is shared state that outlives a run — on a
cache hit, `require` returns the cached context's exports unchanged no matter
what the current (possibly replaced) filesystem holds for that path, and the
cache state is left untouched. -/
theorem require_cache_hit_ignores_fs (fs : NFs) (fuel : Nat) (st : NState)
    (fromPath spec res : String)
    (hres : resolveSyncModel fs (PathMod.dirname fromPath) spec = some res)
    (hfs : res ≠ "fs") (hspec : res ≠ spec)
    (hcached : StrOps.memStr res st.cached = true) :
    reqM fs (fuel + 1) st fromPath spec = .ok (getExp st res, st) := by
  simp [reqM, nodeExec, hres, hfs, hspec, hcached]

/-- Witness for C2's amended theorem: with `/m.js` already cached with export
1, requiring `./m` on a filesystem whose `/m.js` now exports 2 still returns
1 and leaves the state alone. -/
theorem require_cache_hit_ignores_fs_witness :
    reqM runTwoFs (4 + 1) ⟨["/m.js"], [("/m.js", .intV 1)]⟩ "/e2.js" "./m" =
      .ok (.intV 1, ⟨["/m.js"], [("/m.js", .intV 1)]⟩) := by
  rw [require_cache_hit_ignores_fs runTwoFs 4 ⟨["/m.js"], [("/m.js", .intV 1)]⟩
    "/e2.js" "./m" "/m.js" (by rfl) (by decide) (by decide) (by rfl)]
  rfl

end NodeRunTheorems

namespace SandboxExec

/-- A JavaScript value as the harness's contexts hold them.  `native` stands
for a host-provided binding (console, document, fetch, …); `selfRef` marks a
binding that aliases the context object itself (`ctx.window = ctx.self = ctx`,
`ctx.global = ctx` — a finite embedding cannot contain the cyclic object, so
the alias is a marker); `pfn` is a function called with one string argument,
as the `parcelRequire…` loader is. -/
inductive JsVal where
  | undefV
  | jsNull
  | boolV (b : Bool)
  | num (n : Int)
  | str (s : String)
  | obj (fields : List (String × JsVal))
  | native (name : String)
  | selfRef
  | pfn (f : String → JsVal)

/-- An execution context: its bindings in insertion order (a JS object). -/
abbrev Ctx := List (String × JsVal)

/-- JavaScript `typeof` on the embedded values (`typeof null` is
`"object"`, host objects are modelled as objects). -/
def jsTypeof : JsVal → String
  | .undefV => "undefined"
  | .jsNull => "object"
  | .boolV _ => "boolean"
  | .num _ => "number"
  | .str _ => "string"
  | .obj _ => "object"
  | .native _ => "object"
  | .selfRef => "object"
  | .pfn _ => "function"

/-- JavaScript loose `x == null` (true for both `null` and `undefined`). -/
def looseNull : JsVal → Bool
  | .jsNull => true
  | .undefV => true
  | _ => false

/-- Property read on a context: `undefined` when the key is absent. -/
def lookupCtx (ctx : Ctx) (k : String) : JsVal :=
  (StrOps.lookupStr k ctx).getD .undefV

/-- Property write on a context: overwrite in place, else append (JS objects
keep the original insertion position on overwrite). -/
def setKey : Ctx → String → JsVal → Ctx
  | [], k, v => [(k, v)]
  | (k', v') :: rest, k, v =>
    if k' = k then (k, v) :: rest else (k', v') :: setKey rest k v

/-- Property read on an object value: `undefined` off objects or missing keys. -/
def objGet : JsVal → String → JsVal
  | .obj fields, k => (StrOps.lookupStr k fields).getD .undefV
  | _, _ => .undefV

/-- `Object.assign(target, updates)` (and object spread): each update key is
written into the target in order, overwriting same-named bindings. -/
def assign (target updates : Ctx) : Ctx :=
  updates.foldl (fun acc kv => setKey acc kv.1 kv.2) target

/-- The default bindings `prepareBrowserContext` installs before merging
`globals` (lines 488–525): the CommonJS pair, the fake document, and the
browser shims.  Host-backed members are `native`; `module.exports` starts as
the same empty object as `exports` (object identity is not tracked). -/
def browserDefaults : Ctx :=
  [("exports", .obj []),
   ("module", .obj [("exports", .obj [])]),
   ("document", .native "document"),
   ("WebSocket", .native "WebSocket"),
   ("console", .native "console"),
   ("location", .obj [("hostname", .str "localhost"),
                      ("origin", .str "http://localhost")]),
   ("fetch", .native "fetch"),
   ("atob", .native "atob"),
   ("btoa", .native "btoa"),
   ("URL", .native "URL")]

/-- `prepareBrowserContext` (lines 488–528), binding view: merge `globals`
over the defaults with `Object.assign`, then `ctx.window = ctx.self = ctx`. -/
def prepareBrowserContextModel (globals : Ctx) : Ctx :=
  setKey (setKey (assign browserDefaults globals) "window" .selfRef)
    "self" .selfRef

/-- The default bindings `prepareNodeContext` installs before merging
`globals` (lines 594–607). -/
def nodeDefaults (filePath : String) : Ctx :=
  [("module", .obj [("exports", .obj []), ("require", .native "require")]),
   ("exports", .obj []),
   ("__filename", .str filePath),
   ("__dirname", .str (PathMod.dirname filePath)),
   ("require", .native "require"),
   ("console", .native "console"),
   ("process", .native "process"),
   ("setTimeout", .native "setTimeout"),
   ("setImmediate", .native "setImmediate")]

/-- `prepareNodeContext` (lines 594–610), binding view: merge `globals` over
the defaults, then `ctx.global = ctx`. -/
def prepareNodeContextModel (filePath : String) (globals : Ctx) : Ctx :=
  setKey (assign (nodeDefaults filePath) globals) "global" .selfRef

theorem lookupStr_setKey_self (c : Ctx) (k : String) (v : JsVal) :
    StrOps.lookupStr k (setKey c k v) = some v := by
  induction c with
  | nil => simp [setKey, StrOps.lookupStr]
  | cons hd tl ih =>
    obtain ⟨k', v'⟩ := hd
    by_cases h : k' = k
    · simp [setKey, h, StrOps.lookupStr]
    · simp [setKey, h, StrOps.lookupStr, ih]

theorem lookupStr_setKey_other (c : Ctx) (k k' : String) (v : JsVal)
    (h : k' ≠ k) :
    StrOps.lookupStr k' (setKey c k v) = StrOps.lookupStr k' c := by
  induction c with
  | nil => simp [setKey, StrOps.lookupStr, Ne.symm h]
  | cons hd tl ih =>
    obtain ⟨k0, v0⟩ := hd
    by_cases h0 : k0 = k
    · subst h0
      simp [setKey, StrOps.lookupStr, Ne.symm h]
    · simp [setKey, h0, StrOps.lookupStr, ih]

theorem lookupCtx_assign_notMem (g t : Ctx) (k : String)
    (h : k ∉ g.map Prod.fst) :
    lookupCtx (assign t g) k = lookupCtx t k := by
  induction g generalizing t with
  | nil => simp [assign]
  | cons hd tl ih =>
    obtain ⟨k0, v0⟩ := hd
    simp only [List.map_cons, List.mem_cons] at h
    push_neg at h
    have step : assign t ((k0, v0) :: tl) = assign (setKey t k0 v0) tl := rfl
    rw [step, ih (setKey t k0 v0) h.2]
    simp [lookupCtx, lookupStr_setKey_other t k0 k v0 h.1]

theorem lookupCtx_assign_mem (g t : Ctx) (k : String) (v : JsVal)
    (hnd : (g.map Prod.fst).Nodup) (hmem : (k, v) ∈ g) :
    lookupCtx (assign t g) k = v := by
  induction g generalizing t with
  | nil => simp at hmem
  | cons hd tl ih =>
    obtain ⟨k0, v0⟩ := hd
    simp only [List.map_cons, List.nodup_cons] at hnd
    have step : assign t ((k0, v0) :: tl) = assign (setKey t k0 v0) tl := rfl
    rcases List.mem_cons.mp hmem with heq | htl
    · injection heq with hk hv
      subst hk
      subst hv
      rw [step, lookupCtx_assign_notMem tl (setKey t k v) k hnd.1]
      simp [lookupCtx, lookupStr_setKey_self]
    · rw [step]
      exact ih (setKey t k0 v0) hnd.2 htl

end SandboxExec

section ContextTheorems
open SandboxExec

/-- C10: every key of the caller-supplied `globals` object ends up bound in
the prepared context and shadows the same-named default binding, while the
self-referential aliases — `window`/`self` in a browser context, `global` in
a node context — are written after the merge and always alias the context
itself, regardless of what `globals` contains. -/
theorem globals_shadow_defaults (globals : Ctx) (filePath k : String)
    (v : JsVal) (hnd : (globals.map Prod.fst).Nodup) (hmem : (k, v) ∈ globals) :
    (k ≠ "window" → k ≠ "self" →
        lookupCtx (prepareBrowserContextModel globals) k = v) ∧
    (k ≠ "global" →
        lookupCtx (prepareNodeContextModel filePath globals) k = v) ∧
    lookupCtx (prepareBrowserContextModel globals) "window" = .selfRef ∧
    lookupCtx (prepareBrowserContextModel globals) "self" = .selfRef ∧
    lookupCtx (prepareNodeContextModel filePath globals) "global" = .selfRef := by
  refine ⟨?_, ?_, ?_, ?_, ?_⟩
  · intro hw hs
    unfold prepareBrowserContextModel
    simp only [lookupCtx] at *
    rw [lookupStr_setKey_other _ "self" k .selfRef hs,
      lookupStr_setKey_other _ "window" k .selfRef hw]
    exact lookupCtx_assign_mem globals browserDefaults k v hnd hmem
  · intro hg
    unfold prepareNodeContextModel
    simp only [lookupCtx] at *
    rw [lookupStr_setKey_other _ "global" k .selfRef hg]
    exact lookupCtx_assign_mem globals (nodeDefaults filePath) k v hnd hmem
  · unfold prepareBrowserContextModel
    simp only [lookupCtx]
    rw [lookupStr_setKey_other _ "self" "window" .selfRef (by decide),
      lookupStr_setKey_self]
    rfl
  · unfold prepareBrowserContextModel
    simp only [lookupCtx]
    rw [lookupStr_setKey_self]
    rfl
  · unfold prepareNodeContextModel
    simp only [lookupCtx]
    rw [lookupStr_setKey_self]
    rfl

/-- Witness for C10: a `globals` that overrides `document` and tries to
override `window` — `document` is shadowed, `window` still aliases the
context; same for `require` and `global` in a node context. -/
theorem globals_shadow_defaults_witness :
    lookupCtx (prepareBrowserContextModel
        [("document", .num 1), ("window", .num 2)]) "document" = .num 1 ∧
    lookupCtx (prepareBrowserContextModel
        [("document", .num 1), ("window", .num 2)]) "window" = .selfRef ∧
    lookupCtx (prepareNodeContextModel "/f.js" [("require", .num 3)])
        "require" = .num 3 ∧
    lookupCtx (prepareNodeContextModel "/f.js" [("require", .num 3)])
        "global" = .selfRef := by
  have h1 := globals_shadow_defaults [("document", .num 1), ("window", .num 2)]
    "/f.js" "document" (.num 1) (by simp) (by simp)
  have h2 := globals_shadow_defaults [("require", .num 3)] "/f.js" "require"
    (.num 3) (by simp) (by simp)
  exact ⟨h1.1 (by decide) (by decide), h1.2.2.1, h2.2.1 (by decide), h2.2.2.2.2⟩

end ContextTheorems

namespace SandboxExec

/-- The entry asset's environment as `runBundles` consults it:
`env.context`, `env.outputFormat`, `env.scopeHoist` (lines 218–219, 259–261). -/
structure BEnv where
  context : String
  outputFormat : String
  scopeHoist : Bool

/-- The failures `runBundles` can raise while dispatching and extracting:
`Unknown target` (line 243), the `invariant` assertion on `ctx.module`
(line 273), the unsupported-output-format error (lines 276–278), and a host
`TypeError` when the scanned `parcelRequire…` binding is not callable. -/
inductive RunErr where
  | unknownTarget (t : String)
  | invariantViolation
  | unsupportedOutputFormat (f : String)
  | notCallable

/-- What a run produces: an extracted value (`opts.require` true) or the raw
context (`opts.require` false, line 282). -/
inductive Outcome where
  | value (v : JsVal)
  | rawCtx (c : Ctx)

/-- A bundle as the executor sees it: its name and the effect its script has
on the shared context (shallow embedding of `vm.runInContext`, lines
246–251). -/
abbrev Bundle := String × (Ctx → Ctx)

/-- The context-construction dispatch of `runBundles` (lines 221–244):
`browser` gets a browser context, `node`/`electron-main` a node context,
`electron-renderer` the spread-merge of both (browser entries first, node
entries overriding), and anything else no context at all. -/
def initCtxFor (target filePath : String) (globals : Ctx) : Option Ctx :=
  if target = "browser" then some (prepareBrowserContextModel globals)
  else if target = "node" || target = "electron-main" then
    some (prepareNodeContextModel filePath globals)
  else if target = "electron-renderer" then
    some (assign (prepareBrowserContextModel globals)
      (prepareNodeContextModel filePath globals))
  else none

/-- Sequential evaluation of the bundles on the one shared context
(lines 247–251). -/
def evalBundles (bundles : List Bundle) (ctx0 : Ctx) : Ctx :=
  bundles.foldl (fun c b => b.2 c) ctx0

/-- The invariant guard of the `commonjs` branch (line 273):
`typeof ctx.module === 'object' && ctx.module != null`. -/
def moduleOk (ctx : Ctx) : Bool :=
  if jsTypeof (lookupCtx ctx "module") = "object" then
    !looseNull (lookupCtx ctx "module")
  else false

/-- Calling a context binding with one string argument, as
`ctx[key](bundleGraph.getAssetPublicId(entryAsset))` does (line 267). -/
def callJs (v : JsVal) (arg : String) : Except RunErr JsVal :=
  match v with
  | .pfn f => .ok (f arg)
  | _ => .error .notCallable

/-- The first context binding whose name starts with `parcelRequire`
(the `for key in ctx` scan of lines 264–269). -/
def findParcelRequire (ctx : Ctx) : Option JsVal :=
  (ctx.find? (fun kv => StrOps.startsWith kv.1 "parcelRequire")).map Prod.snd

/-- Export extraction per output format (lines 258–279): `global` with scope
hoisting reads the `output` binding (undefined when absent); `global` without
scope hoisting calls the `parcelRequire…` loader with the entry's public id,
and yields undefined when no such binding exists (the bare `return` of
line 271); `commonjs` returns `ctx.module.exports` behind the invariant
guard; any other format is unsupported. -/
def extractOutput (env : BEnv) (ctx : Ctx) (entryPublicId : String) :
    Except RunErr JsVal :=
  if env.outputFormat = "global" then
    if env.scopeHoist then .ok (lookupCtx ctx "output")
    else
      match findParcelRequire ctx with
      | some f => callJs f entryPublicId
      | none => .ok .undefV
  else if env.outputFormat = "commonjs" then
    if moduleOk ctx then .ok (objGet (lookupCtx ctx "module") "exports")
    else .error .invariantViolation
  else .error (.unsupportedOutputFormat env.outputFormat)

/-- `runBundles` (lines 206–283) over the embedding: dispatch on the entry
environment's context kind — an unrecognized kind fails before any bundle is
evaluated — then evaluate every bundle in order on the shared context, then
extract (or return the raw context).  The first component lists the bundles
that were evaluated. -/
def runBundlesModel (env : BEnv) (parentFilePath : String) (globals : Ctx)
    (bundles : List Bundle) (requireOpt : Bool) (entryPublicId : String) :
    List String × Except RunErr Outcome :=
  match initCtxFor env.context parentFilePath globals with
  | none => ([], .error (.unknownTarget env.context))
  | some ctx0 =>
    let ctx := evalBundles bundles ctx0
    (bundles.map Prod.fst,
     if requireOpt then (extractOutput env ctx entryPublicId).map Outcome.value
     else .ok (.rawCtx ctx))

end SandboxExec

section RunBundlesTheorems
open SandboxExec

/-- C9: a run whose entry context kind is none of `browser`, `node`,
`electron-main`, `electron-renderer` fails with the `Unknown target` error
with an empty evaluation trace — no bundle is evaluated, no partial result is
produced. -/
theorem runBundles_unknown_target (env : BEnv) (fp pid : String)
    (globals : Ctx) (bundles : List Bundle) (ro : Bool)
    (h : env.context ≠ "browser" ∧ env.context ≠ "node" ∧
         env.context ≠ "electron-main" ∧ env.context ≠ "electron-renderer") :
    runBundlesModel env fp globals bundles ro pid =
      ([], .error (.unknownTarget env.context)) := by
  obtain ⟨h1, h2, h3, h4⟩ := h
  simp [runBundlesModel, initCtxFor, h1, h2, h3, h4]

/-- Witness for C9: a `web-worker` context kind aborts a one-bundle run with
`Unknown target`, evaluating nothing. -/
theorem runBundles_unknown_target_witness :
    runBundlesModel ⟨"web-worker", "global", true⟩ "/x.js" []
        [("b.js", fun c => c)] true "eid" =
      ([], .error (.unknownTarget "web-worker")) :=
  runBundles_unknown_target ⟨"web-worker", "global", true⟩ "/x.js" "eid" []
    [("b.js", fun c => c)] true (by decide)

/-- C8: in a `commonjs`-format node run with extraction requested, the result
is `ctx.module.exports` whenever the `module` binding is a non-null object,
and the invariant violation otherwise; a bundle that sets
`module.exports = 42` yields exactly `42`. -/
theorem runBundles_commonjs_exports (fp pid : String) (sh : Bool)
    (globals : Ctx) (bundles : List Bundle) :
    ((moduleOk (evalBundles bundles (prepareNodeContextModel fp globals)) = true →
        (runBundlesModel ⟨"node", "commonjs", sh⟩ fp globals bundles true pid).2 =
          .ok (.value (objGet
            (lookupCtx (evalBundles bundles (prepareNodeContextModel fp globals))
              "module") "exports"))) ∧
     (moduleOk (evalBundles bundles (prepareNodeContextModel fp globals)) = false →
        (runBundlesModel ⟨"node", "commonjs", sh⟩ fp globals bundles true pid).2 =
          .error .invariantViolation)) ∧
    runBundlesModel ⟨"node", "commonjs", false⟩ "/entry.js" []
        [("b.js", fun c => setKey c "module" (.obj [("exports", .num 42)]))]
        true "eid" =
      (["b.js"], .ok (.value (.num 42))) := by
  refine ⟨⟨?_, ?_⟩, ?_⟩
  · intro h
    simp [runBundlesModel, initCtxFor, extractOutput, h, Except.map]
  · intro h
    simp [runBundlesModel, initCtxFor, extractOutput, h, Except.map]
  · rfl

/-- Witness for C8: the `module.exports = 42` scenario through the general
branch hypotheses — a well-formed `module` binding yields its `exports`
value, a numeric `module` binding trips the invariant. -/
theorem runBundles_commonjs_exports_witness :
    (runBundlesModel ⟨"node", "commonjs", false⟩ "/entry.js" []
        [("b.js", fun c => setKey c "module" (.obj [("exports", .num 7)]))]
        true "eid").2 = .ok (.value (.num 7)) ∧
    (runBundlesModel ⟨"node", "commonjs", false⟩ "/entry.js" []
        [("nb.js", fun c => setKey c "module" (.num 3))] true "eid").2 =
      .error .invariantViolation := by
  constructor
  · exact ((runBundles_commonjs_exports "/entry.js" "eid" false []
      [("b.js", fun c => setKey c "module" (.obj [("exports", .num 7)]))]).1.1
      (by rfl)).trans (by rfl)
  · exact (runBundles_commonjs_exports "/entry.js" "eid" false []
      [("nb.js", fun c => setKey c "module" (.num 3))]).1.2 (by rfl)

end RunBundlesTheorems

namespace BrowserLoads

/-- The virtual filesystem seen through script tags: script path ↦ the srcs of
the script tags its evaluation appends to `document.head`. -/
abbrev SFs := List (String × List String)

/-- State of the browser-context run: the fresh-promise counter, the shared
`promises` array (lines 437–438, by id, in push order), the promises that
have settled, and the FIFO `setTimeout` queue (promise id, script src). -/
structure BState where
  nextId : Nat
  promises : List Nat
  settled : List Nat
  tasks : List (Nat × String)
deriving DecidableEq

/-- Initial state of a run. -/
def initB : BState := ⟨1, [], [], []⟩

/-- Synchronously evaluating script `name` in the context: each script tag it
appends pushes a fresh deferred promise into the shared `promises` array and
schedules a `setTimeout` task that will read, evaluate and settle it
(`head.appendChild`, lines 433–454). -/
def evalScriptB (fs : SFs) (st : BState) (name : String) : BState :=
  ((StrOps.lookupStr name fs).getD []).foldl
    (fun s src =>
      ⟨s.nextId + 1, s.promises ++ [s.nextId], s.settled,
       s.tasks ++ [(s.nextId, src)]⟩)
    st

/-- The event loop after `await Promise.all(promises)` (lines 253–256):
`Promise.all` snapshots the array at call time; queued `setTimeout` callbacks
then run in FIFO order — each evaluates the loaded script (which may append
further tags, pushing promises the snapshot does not cover), fires `onload`
and settles its own promise — and the suspended `runBundles` resumes as soon
as every snapshot promise has settled.  `none` is fuel exhaustion or a
deadlock (a snapshot promise that can never settle). -/
def browserLoop (fs : SFs) (snapshot : List Nat) : Nat → BState → Option BState
  | 0, _ => none
  | fuel + 1, st =>
    if snapshot.all (fun id => st.settled.contains id) then some st
    else
      match st.tasks with
      | [] => none
      | (id, src) :: rest =>
        let st1 := evalScriptB fs ⟨st.nextId, st.promises, st.settled, rest⟩ src
        browserLoop fs snapshot fuel
          ⟨st1.nextId, st1.promises, st1.settled ++ [id], st1.tasks⟩

/-- A browser-context `runBundles` (lines 246–256, async view): evaluate the
bundles synchronously — collecting the loads they schedule — then await the
snapshot of the `promises` array.  Returns the snapshot and the state at the
moment the run's result is produced. -/
def runBrowserLoads (fs : SFs) (bundles : List String) (fuel : Nat) :
    List Nat × Option BState :=
  let stSync := bundles.foldl (evalScriptB fs) initB
  (stSync.promises, browserLoop fs stSync.promises fuel stSync)

end BrowserLoads

section BrowserLoadsTheorems
open BrowserLoads

/-- Counterexample for C7: bundle `main` appends script `a.js` (promise 1)
during synchronous evaluation; the asynchronously loaded `a.js` itself
appends `b.js` (promise 2).  `Promise.all` only snapshotted `[1]`, so the
run's result is produced while promise 2 — an asynchronous load scheduled
during the run by code that itself ran as an asynchronous load — is still in
the shared array but has not settled. -/
theorem async_nested_load_unsettled_cex :
    ((runBrowserLoads [("main", ["a.js"]), ("a.js", ["b.js"]), ("b.js", [])] ["main"] 8).2.map
        (fun st => st.promises)) = some [1, 2] ∧
    ((runBrowserLoads [("main", ["a.js"]), ("a.js", ["b.js"]), ("b.js", [])] ["main"] 8).2.map
        (fun st => st.settled)) = some [1] := by
  constructor <;> rfl

theorem browserLoop_settles (fs : SFs) (snapshot : List Nat) :
    ∀ (fuel : Nat) (st0 st : BState),
      browserLoop fs snapshot fuel st0 = some st →
      snapshot.all (fun id => st.settled.contains id) = true := by
  intro fuel
  induction fuel with
  | zero =>
    intro st0 st h
    simp [browserLoop] at h
  | succ n ih =>
    intro st0 st h
    simp only [browserLoop] at h
    by_cases hg : snapshot.all (fun id => st0.settled.contains id) = true
    · rw [if_pos hg] at h
      cases h
      exact hg
    · rw [if_neg hg] at h
      cases htasks : st0.tasks with
      | nil => rw [htasks] at h; cases h
      | cons hd rest =>
        obtain ⟨id, src⟩ := hd
        rw [htasks] at h
        exact ih _ st h

/-- C7 (amended): every asynchronous load scheduled during the *synchronous*
evaluation of the bundle list — the promises in the array when
`Promise.all` is called — has settled by the time the run produces its
result; loads scheduled later by asynchronously loaded code are outside the
snapshot and are not awaited. -/
theorem sync_phase_loads_settle (fs : SFs) (bundles : List String)
    (fuel : Nat) (st : BState)
    (h : (runBrowserLoads fs bundles fuel).2 = some st) :
    ∀ id ∈ (runBrowserLoads fs bundles fuel).1, id ∈ st.settled := by
  intro id hid
  simp only [runBrowserLoads] at h hid
  have hall := browserLoop_settles fs _ fuel _ st h
  rw [List.all_eq_true] at hall
  have := hall id hid
  exact List.mem_of_elem_eq_true this

/-- Witness for C7's amended theorem: in the nested-load scenario, the one
promise of the synchronous phase (promise 1) has settled when the result is
produced. -/
theorem sync_phase_loads_settle_witness :
    1 ∈ (BState.mk 3 [1, 2] [1] [(2, "b.js")]).settled :=
  sync_phase_loads_settle [("main", ["a.js"]), ("a.js", ["b.js"]), ("b.js", [])] ["main"] 8
    ⟨3, [1, 2], [1], [(2, "b.js")]⟩ (by rfl) 1 (by decide)

end BrowserLoadsTheorems
